import Mathlib

/-
Verification of the graphqlgen type-projection engine (the TypeScript and
Flow dialect renderers) against its natural-language specification.

The data model follows spec section 3 (the shapes come from ../source-helper
and ../types, which are not under src/); the rendering functions are shallow
embeddings of src/unnamed/part_000 (the TypeScript generator) and
src/packages/graphqlgen/src/generators/flow/generator.ts (the Flow
generator).  Helpers imported from generators/common.ts and utils.ts are not
under src/ and are modelled from the spec; each such definition carries a
doc comment starting with "Modelled from the spec:".
-/

set_option maxRecDepth 4096

namespace Graphqlgen

/-- A schema type reference / type definition tag (spec section 3: discriminant
plus base name, nullable flag and list flag; mirrors GraphQLTypeDefinition /
GraphQLType from ../source-helper, not under src/). -/
structure GraphQLTypeDefinition where
  name : String
  isObject : Bool := false
  isInput : Bool := false
  isEnum : Bool := false
  isInterface : Bool := false
  isScalar : Bool := false
  isUnion : Bool := false
  isRequired : Bool := true
  isArray : Bool := false
  deriving DecidableEq, Repr

/-- A field argument: name plus type reference (spec section 3). -/
structure GraphQLTypeArgument where
  name : String
  type : GraphQLTypeDefinition
  deriving DecidableEq, Repr

/-- A field: name, ordered arguments, return type reference (spec section 3). -/
structure GraphQLTypeField where
  name : String
  arguments : List GraphQLTypeArgument
  type : GraphQLTypeDefinition
  deriving DecidableEq, Repr

/-- An object-like type: name, its definition tag, ordered fields, and the
names of the interfaces it implements (spec section 3). -/
structure GraphQLTypeObject where
  name : String
  type : GraphQLTypeDefinition
  fields : List GraphQLTypeField
  interfaces : List String := []
  deriving DecidableEq, Repr

/-- An interface: name, definition tag, fields, and its implementing types
(spec section 3: interfaces carry the list of implementing type names). -/
structure GraphQLInterfaceObject where
  name : String
  type : GraphQLTypeDefinition
  fields : List GraphQLTypeField
  types : List GraphQLTypeDefinition
  deriving DecidableEq, Repr

/-- A union: name plus member types (spec section 3). -/
structure GraphQLUnionObject where
  name : String
  types : List GraphQLTypeDefinition
  deriving DecidableEq, Repr

/-- The `definition` part of a model entry, as inspected by renderHeader
(part_000 lines 115-120): a kind tag and the enum-alias flag. -/
structure ModelDefinitionInfo where
  kind : String
  isEnum : Bool := false
  deriving DecidableEq, Repr

/-- A model descriptor (spec section 3: target type name, source import path,
whether the underlying model is an enum alias; `properties` lists the model's
own property names, consulted by default-resolver synthesis, spec 4.3). -/
structure Model where
  modelName : String
  importPath : String
  definition : ModelDefinitionInfo
  properties : List String := []
  deriving DecidableEq, Repr

/-- The optional context descriptor (spec section 3). -/
structure ContextDefinition where
  contextName : String
  contextPath : String
  deriving DecidableEq, Repr

/-- The model map: schema type name to model descriptor, as an association
list in declaration order (spec section 3). -/
abbrev ModelMap := List (String × Model)

/-- The input contract of `generate` (spec section 6 / ../types, not under
src/): ordered type, interface and union lists, the model map, the optional
context, and the default-resolver flag. -/
structure GenerateArgs where
  types : List GraphQLTypeObject
  interfaces : List GraphQLInterfaceObject
  unions : List GraphQLUnionObject
  modelMap : ModelMap
  context : Option ContextDefinition := none
  defaultResolversEnabled : Bool := true
  deriving DecidableEq, Repr

/-- Property lookup on an object built as an association list (JS object
property access; keys are unique by the schema invariants of spec section 3,
so first-match lookup agrees with the JS object). -/
def lookupEntry {β : Type} (m : List (String × β)) (k : String) : Option β :=
  (m.find? (fun kv => kv.1 == k)).map (fun kv => kv.2)

/- ===== helpers from utils.ts / generators/common.ts (not under src/) ===== -/

/-- Modelled from the spec: `upperFirst` (utils.ts, not under src/) capitalizes
the first character of a name; it realizes the dialect naming conventions such
as the `Owner_InputName` collision-avoidance scheme of spec 4.4. -/
def upperFirst (s : String) : String :=
  match s.data with
  | [] => ""
  | c :: cs => String.mk (Char.toUpper c :: cs)

/-- Modelled from the spec: `getModelName` (generators/common.ts, not under
src/).  Spec 4.1: if a model entry exists, use the bound target name verbatim;
enums keep their own schema name; otherwise fall back to the caller-supplied
conventional name (the callers in src/ pass "undefined" or use the default). -/
def getModelName (t : GraphQLTypeDefinition) (modelMap : ModelMap)
    (fallback : String := "{}") : String :=
  if t.isEnum then t.name
  else
    match lookupEntry modelMap t.name with
    | some m => m.modelName
    | none => fallback

/-- Modelled from the spec: `getContextName` (generators/common.ts, not under
src/).  Spec section 3: the context descriptor names the context type; absent
means an unconstrained context type. -/
def getContextName (context : Option ContextDefinition) : String :=
  match context with
  | some c => c.contextName
  | none => "Context"

/-- Modelled from the spec: `printFieldLikeType` (generators/common.ts, not
under src/).  Spec 4.1: resolve the base type through the model map, then
re-apply the list wrapping and nullability of the type reference. -/
def printFieldLikeType (f : GraphQLTypeField) (modelMap : ModelMap) : String :=
  let base := getModelName f.type modelMap
  let wrapped := if f.type.isArray then base ++ "[]" else base
  if f.type.isRequired then wrapped else wrapped ++ " | null"

/-- Modelled from the spec: `resolverReturnType` (generators/common.ts, not
under src/): the return type of a resolver admits the plain value or a
promise of it. -/
def resolverReturnType (ret : String) : String :=
  ret ++ " | Promise<" ++ ret ++ ">"

/-- First-seen deduplication: keep the first occurrence of every element,
drop later repeats.  This is the order contract of spec 4.4. -/
def firstSeenDedup : List String → List String
  | [] => []
  | a :: xs => a :: (firstSeenDedup xs).filter (fun b => b != a)

/-- Modelled from the spec: `getDistinctInputTypes` (generators/common.ts, not
under src/).  Spec 4.4: the deduplicated input-type name sequence of an object
type, in first-seen order across the type's fields and arguments. -/
def getDistinctInputTypes (t : GraphQLTypeObject)
    (assoc : List (String × List String))
    (_inputTypesMap : List (String × GraphQLTypeObject)) : List String :=
  firstSeenDedup ((lookupEntry assoc t.name).getD [])

/-- Modelled from the spec: `groupModelsNameByImportPath` (generators/common.ts,
not under src/).  Spec 4.1: a deduplicated, one-entry-per-path import list
grouped by path, in first-seen path order. -/
def groupModelsNameByImportPath (models : List Model) :
    List (String × List String) :=
  (firstSeenDedup (models.map (fun m => m.importPath))).map
    (fun p => (p, (models.filter (fun m => m.importPath == p)).map
      (fun m => m.modelName)))

/-- A synthesized default-resolver bundle: the variable name and the fields it
covers. -/
structure DefaultResolverBundle where
  variableName : String
  fields : List GraphQLTypeField
  deriving DecidableEq, Repr

/-- Modelled from the spec: `renderDefaultResolvers` (generators/common.ts, not
under src/).  Spec 4.3: the bundle contains exactly the fields with zero
arguments whose name matches a property on the type's bound model; the
boolean flag of spec section 6 controls whether default-resolver synthesis is
enabled at all, and the synthesizer receives the full GenerateArgs, so it
yields nothing when the flag is disabled (the Flow call site additionally
gates the call; the TypeScript call site at part_000 line 268 calls it
unconditionally and relies on this gate). -/
def renderDefaultResolvers (t : GraphQLTypeObject) (args : GenerateArgs)
    (variableName : String) : Option DefaultResolverBundle :=
  if args.defaultResolversEnabled then
    some
      { variableName := variableName
        fields := t.fields.filter (fun f =>
          f.arguments.isEmpty &&
            ((lookupEntry args.modelMap t.name).map
              (fun m => m.properties.contains f.name)).getD false) }
  else none

/- ===== index builders (generate, in both generator files under src/) ===== -/

/-- The input-type registry: name to definition, over `args.types` filtered to
input types (generate, flow generator lines 48-55 / part_000 lines 46-53). -/
def inputTypesMap (args : GenerateArgs) : List (String × GraphQLTypeObject) :=
  (args.types.filter (fun t => t.type.isInput)).map (fun t => (t.name, t))

/-- The input-type names reachable through one field's arguments (the inner
map of the association builder in generate). -/
def fieldInputTypeNames (f : GraphQLTypeField) : List String :=
  (f.arguments.filter (fun a => a.type.isInput)).map (fun a => a.type.name)

/-- The input-type names reachable through an object type's fields' arguments,
in field order (the concat in generate, part_000 lines 67-73). -/
def typeInputTypeNames (t : GraphQLTypeObject) : List String :=
  (t.fields.map fieldInputTypeNames).flatten

/-- Whether a type has at least one field with at least one input-typed
argument (the filter predicate in generate, part_000 lines 57-63). -/
def hasInputArgs (t : GraphQLTypeObject) : Bool :=
  decide (0 < (t.fields.filter (fun f =>
    decide (0 < (f.arguments.filter (fun a => a.type.isInput)).length))).length)

/-- The type-to-input-type association (generate, part_000 lines 56-75): for
every object type with input-typed arguments, the reachable input type names. -/
def typeToInputTypeAssociation (args : GenerateArgs) :
    List (String × List String) :=
  (args.types.filter (fun t => t.type.isObject && hasInputArgs t)).map
    (fun t => (t.name, typeInputTypeNames t))

/-- The interface registry: interface name to implementing types (generate,
part_000 lines 77-85). -/
def interfacesMap (args : GenerateArgs) :
    List (String × List GraphQLTypeDefinition) :=
  args.interfaces.map (fun i => (i.name, i.types))

/-- The union registry: union name to member types (generate, part_000
lines 87-92). -/
def unionsMap (args : GenerateArgs) :
    List (String × List GraphQLTypeDefinition) :=
  args.unions.map (fun u => (u.name, u.types))

/- ===== shared shapes of the emitted declarations ===== -/

/-- One emitted input-type declaration: its declared name and rendered field
lines. -/
structure InputTypeDecl where
  declName : String
  fieldLines : List String
  deriving DecidableEq, Repr

/-- One emitted argument-bag declaration: its declared name and rendered
argument lines. -/
structure ArgsDecl where
  declName : String
  argLines : List String
  deriving DecidableEq, Repr

/-- One member of a subscription-shaped resolver declaration. -/
structure ResolverMember where
  memberName : String
  optional : Bool
  signature : String
  deriving DecidableEq, Repr

/-- The shape of an emitted resolver declaration: either the two-function
subscription shape (a subscribe source plus a transform) or a single
request/response function. -/
inductive ResolverShape where
  | twoFunction (subscribe : ResolverMember) (resolve : ResolverMember)
  | singleFunction (signature : String)
  deriving DecidableEq, Repr

/-- Whether a shape is the subscription projection: a required `subscribe`
member plus an optional `resolve` member. -/
def ResolverShape.isSubscriptionShape : ResolverShape → Bool
  | .twoFunction s r =>
      s.memberName == "subscribe" && !s.optional &&
        r.memberName == "resolve" && r.optional
  | .singleFunction _ => false

/-- Whether a shape is a single request/response function. -/
def ResolverShape.isSingleFunction : ResolverShape → Bool
  | .twoFunction _ _ => false
  | .singleFunction _ => true

/-- One emitted per-field resolver-function-type declaration, decomposed into
its components: declared name, parent type expression, argument-bag type
expression, return type expression, and the shape. -/
structure ResolverFnDecl where
  resolverName : String
  parent : String
  argsType : String
  returnType : String
  shape : ResolverShape
  deriving DecidableEq, Repr

/-- One entry of the final aggregate resolver-map declaration: the schema type
name, whether the entry is optional, and the referenced resolver-shape
declaration. -/
structure ResolverMapEntry where
  key : String
  optional : Bool
  target : String
  deriving DecidableEq, Repr

/-- The result of the `format` wrapper: the returned text and the diagnostic
reported to the caller, if any. -/
structure FormatResult where
  output : String
  diagnostic : Option String
  deriving DecidableEq, Repr

/-- Embeds `format` (part_000 lines 28-42 / flow generator lines 30-44): the
external prettier step is a parameter that either yields formatted text or
raises; on error the original code is returned unchanged and a diagnostic is
logged for the caller. -/
def format (prettierFormat : String → Except String String)
    (code : String) : FormatResult :=
  match prettierFormat code with
  | Except.ok formatted => { output := formatted, diagnostic := none }
  | Except.error e =>
      { output := code
        diagnostic := some
          ("There is a syntax error in generated code, unformatted code printed, error: "
            ++ e) }

/-- The textual resolver function signature prelude shared by both dialects:
parent, args, ctx and info parameters (part_000 lines 439-448). -/
def resolverDefinitionText (parent argsType ctxName : String) : String :=
  "(parent: " ++ parent ++ ", args: " ++ argsType ++ ", ctx: " ++ ctxName
    ++ ", info: GraphQLResolveInfo)"

/- ===== the TypeScript dialect renderer (src/unnamed/part_000) ===== -/

namespace TS

/-- The namespace wrapping one object type's declarations (part_000
line 266: `export namespace NameResolvers`). -/
def namespaceNameOf (t : GraphQLTypeObject) : String :=
  t.name ++ "Resolvers"

/-- Embeds renderInputTypeInterfaces (part_000 lines 340-367): nothing when
the type has no association entry, else one declaration per distinct input
type; the source joins the list with os.EOL. -/
def renderInputTypeInterfaces (t : GraphQLTypeObject) (modelMap : ModelMap)
    (assoc : List (String × List String))
    (itm : List (String × GraphQLTypeObject)) : List InputTypeDecl :=
  match lookupEntry assoc t.name with
  | none => []
  | some _ =>
      (getDistinctInputTypes t assoc itm).map (fun ta =>
        let inputType := (lookupEntry itm ta).getD
          { name := ta, type := { name := ta }, fields := [] }
        { declName := inputType.name
          fieldLines := inputType.fields.map (fun f =>
            f.name ++ ": " ++ printFieldLikeType f modelMap) })

/-- The declared names of an object type's input-type block, over the indices
derived from the full generation input. -/
def inputTypeDeclNames (t : GraphQLTypeObject) (args : GenerateArgs) :
    List String :=
  (renderInputTypeInterfaces t args.modelMap (typeToInputTypeAssociation args)
    (inputTypesMap args)).map (fun d => d.declName)

/-- The declared name of a field's argument bag (part_000 line 393:
`Args` plus the capitalized field name). -/
def argsDeclName (f : GraphQLTypeField) : String :=
  "Args" ++ upperFirst f.name

/-- Converts an argument to a field-like value, as the source casts
`arg as GraphQLTypeField` (part_000 line 398). -/
def argAsField (a : GraphQLTypeArgument) : GraphQLTypeField :=
  { name := a.name, arguments := [], type := a.type }

/-- Embeds renderInputArgInterface (part_000 lines 382-407): nothing for a
field without arguments, else the argument-bag declaration. -/
def renderInputArgInterface (f : GraphQLTypeField) (modelMap : ModelMap) :
    Option ArgsDecl :=
  if f.arguments.length == 0 then none
  else some
    { declName := argsDeclName f
      argLines := f.arguments.map (fun a =>
        a.name ++ ": " ++ printFieldLikeType (argAsField a) modelMap) }

/-- Embeds renderResolverFunctionInterface (part_000 lines 430-468): the
resolver name, the signature components, and the Subscription-special-cased
shape. -/
def renderResolverFunctionInterface (f : GraphQLTypeField)
    (t : GraphQLTypeObject) (modelMap : ModelMap)
    (context : Option ContextDefinition) : ResolverFnDecl :=
  let resolverName := upperFirst f.name ++ "Resolver"
  let parent := getModelName t.type modelMap "undefined"
  let argsType := if 0 < f.arguments.length then argsDeclName f else "{}"
  let defn := resolverDefinitionText parent argsType (getContextName context)
  let returnType := printFieldLikeType f modelMap
  if t.name == "Subscription" then
    { resolverName := resolverName, parent := parent, argsType := argsType
      returnType := returnType
      shape := ResolverShape.twoFunction
        { memberName := "subscribe", optional := false
          signature := defn ++ " => AsyncIterator<" ++ returnType
            ++ "> | Promise<AsyncIterator<" ++ returnType ++ ">>" }
        { memberName := "resolve", optional := true
          signature := defn ++ " => " ++ returnType ++ " | Promise<"
            ++ returnType ++ ">" } }
  else
    { resolverName := resolverName, parent := parent, argsType := argsType
      returnType := returnType
      shape := ResolverShape.singleFunction
        (defn ++ " => " ++ returnType ++ " | Promise<" ++ returnType ++ ">") }

/-- One field entry of the aggregate per-type resolver-shape declaration,
decomposed into its components. -/
structure FieldResolverEntry where
  fieldName : String
  parent : String
  argsType : String
  returnType : String
  shape : ResolverShape
  deriving DecidableEq, Repr

/-- Embeds renderResolverTypeInterfaceFunction (part_000 lines 510-561): for
an interface owner the parent expression is the union of the implementing
types' resolved model names looked up in the interface registry; otherwise it
is the owner's own resolved model name. -/
def renderResolverTypeInterfaceFunction (f : GraphQLTypeField)
    (t : GraphQLTypeObject) (modelMap : ModelMap)
    (imap : List (String × List GraphQLTypeDefinition))
    (context : Option ContextDefinition) : FieldResolverEntry :=
  let parent :=
    if t.type.isInterface then
      String.intercalate " | " (((lookupEntry imap t.name).getD []).map
        (fun implType => getModelName implType modelMap "undefined"))
    else getModelName t.type modelMap "undefined"
  let argsType := if 0 < f.arguments.length then argsDeclName f else "{}"
  let defn := resolverDefinitionText parent argsType (getContextName context)
  let returnType := printFieldLikeType f modelMap
  if t.name == "Subscription" then
    { fieldName := f.name, parent := parent, argsType := argsType
      returnType := returnType
      shape := ResolverShape.twoFunction
        { memberName := "subscribe", optional := false
          signature := defn ++ " => AsyncIterator<" ++ returnType
            ++ "> | Promise<AsyncIterator<" ++ returnType ++ ">>" }
        { memberName := "resolve", optional := true
          signature := defn ++ " => " ++ returnType ++ " | Promise<"
            ++ returnType ++ ">" } }
  else
    { fieldName := f.name, parent := parent, argsType := argsType
      returnType := returnType
      shape := ResolverShape.singleFunction
        (defn ++ " => " ++ returnType ++ " | Promise<" ++ returnType ++ ">") }

/-- The interface namespace projection (part_000 lines 209-240): the
namespace name and the union type expression the `__resolveType`
discriminator binding is typed over. -/
structure InterfaceNamespaceDecl where
  namespaceName : String
  resolveTypeUnion : String
  deriving DecidableEq, Repr

/-- Embeds renderInterfaceNamespace (part_000 lines 209-240, the
`__resolveType` binding at lines 233-237): the discriminator is
type-referenced over the implementing types' resolved model names. -/
def renderInterfaceNamespace (i : GraphQLInterfaceObject)
    (args : GenerateArgs) : InterfaceNamespaceDecl :=
  { namespaceName := i.name ++ "Resolvers"
    resolveTypeUnion := String.intercalate " | "
      (i.types.map (fun implType => getModelName implType args.modelMap)) }

/-- The view of an interface as the object-like value the source passes to
renderResolverTypeInterface (part_000 line 224); a GraphQLInterfaceObject has
no `interfaces` property. -/
def interfaceAsTypeObject (i : GraphQLInterfaceObject) : GraphQLTypeObject :=
  { name := i.name, type := i.type, fields := i.fields, interfaces := [] }

/-- The `__isTypeOf` projection (part_000 lines 307-338): always an optional
binding, typed over the possible concrete types' models. -/
structure IsTypeOfDecl where
  optional : Bool
  possibleTypesUnion : String
  deriving DecidableEq, Repr

/-- Embeds the possibleTypes computation of renderIsTypeOfFunctionInterface
(part_000 lines 314-329): start from the flattened implementer lists of the
type's interfaces, then iterate every union in registry order, overwriting
the accumulator with the member list of each union containing the type. -/
def possibleTypesFor (t : GraphQLTypeObject)
    (imap umap : List (String × List GraphQLTypeDefinition)) :
    List GraphQLTypeDefinition :=
  let fromInterfaces := t.interfaces.foldl
    (fun obj iname => obj ++ (lookupEntry imap iname).getD []) []
  umap.foldl
    (fun acc kv =>
      if kv.2.any (fun ut => ut.name == t.name) then kv.2 else acc)
    fromInterfaces

/-- Embeds renderIsTypeOfFunctionInterface (part_000 lines 307-338): nothing
when no possible types were found, else the optional `__isTypeOf` binding. -/
def renderIsTypeOfFunctionInterface (t : GraphQLTypeObject)
    (modelMap : ModelMap)
    (imap umap : List (String × List GraphQLTypeDefinition)) :
    Option IsTypeOfDecl :=
  let possibleTypes := possibleTypesFor t imap umap
  if possibleTypes.length == 0 then none
  else some
    { optional := true
      possibleTypesUnion := String.intercalate " | "
        (possibleTypes.map (fun pt => getModelName pt modelMap)) }

/-- Embeds renderResolvers (part_000 lines 563-575): the entries of the
aggregate resolver map, in order: required object entries, optional interface
entries, optional union entries. -/
def renderResolversEntries (args : GenerateArgs) : List ResolverMapEntry :=
  ((args.types.filter (fun t => t.type.isObject)).map (fun t =>
      { key := t.name, optional := false
        target := t.name ++ "Resolvers.Type" }))
    ++ (args.interfaces.map (fun i =>
      { key := i.name, optional := true, target := i.name ++ "Resolvers.Type" }))
    ++ (args.unions.map (fun u =>
      { key := u.name, optional := true, target := u.name ++ "Resolvers.Type" }))

/-- Whether a model-map entry is an enum type alias, the exclusion tested by
renderHeader (part_000 lines 117-120). -/
def isEnumAliasModel (m : Model) : Bool :=
  m.definition.kind == "TypeAliasDefinition" && m.definition.isEnum

/-- Embeds the modelsToImport computation of renderHeader (part_000
lines 113-122): every model-map entry except enum type aliases. -/
def modelsToImport (args : GenerateArgs) : List Model :=
  (args.modelMap.filter (fun kv => !isEnumAliasModel kv.2)).map
    (fun kv => kv.2)

/-- The grouped header imports (part_000 lines 123-132): one import statement
per import path, listing the grouped model names. -/
def headerImportGroups (args : GenerateArgs) : List (String × List String) :=
  groupModelsNameByImportPath (modelsToImport args)

/-- Embeds the default-resolver part of renderNamespace (part_000 line 268):
the synthesizer is called unconditionally at this call site. -/
def renderNamespaceDefaultResolvers (t : GraphQLTypeObject)
    (args : GenerateArgs) : Option DefaultResolverBundle :=
  renderDefaultResolvers t args "defaultResolvers"

end TS

/- ===== the Flow dialect renderer (generators/flow/generator.ts) ===== -/

namespace Flow

/-- The per-owner-type declared name of an input type in the Flow dialect
(flow generator lines 240-242): capitalized owner name, underscore,
capitalized input type name. -/
def inputTypeDeclName (t : GraphQLTypeObject)
    (itm : List (String × GraphQLTypeObject)) (ta : String) : String :=
  upperFirst t.name ++ "_" ++
    upperFirst (((lookupEntry itm ta).map (fun u => u.name)).getD ta)

/-- Embeds renderInputTypeInterfaces (flow generator lines 226-249): nothing
when the type has no association entry, else one `Owner_Input` declaration
per distinct input type. -/
def renderInputTypeInterfaces (t : GraphQLTypeObject) (modelMap : ModelMap)
    (assoc : List (String × List String))
    (itm : List (String × GraphQLTypeObject)) : List InputTypeDecl :=
  match lookupEntry assoc t.name with
  | none => []
  | some _ =>
      (getDistinctInputTypes t assoc itm).map (fun ta =>
        { declName := inputTypeDeclName t itm ta
          fieldLines := (((lookupEntry itm ta).map (fun u => u.fields)).getD
            []).map (fun f => printFieldLikeType f modelMap) })

/-- The declared names of an object type's input-type block in the Flow
dialect, over the indices derived from the full generation input. -/
def inputTypeDeclNames (t : GraphQLTypeObject) (args : GenerateArgs) :
    List String :=
  (renderInputTypeInterfaces t args.modelMap (typeToInputTypeAssociation args)
    (inputTypesMap args)).map (fun d => d.declName)

/-- Embeds getInputArgName (flow generator lines 453-455). -/
def getInputArgName (t : GraphQLTypeObject) (f : GraphQLTypeField) : String :=
  upperFirst t.name ++ "_Args_" ++ upperFirst f.name

/-- Embeds renderInputArgInterface (flow generator lines 264-289): nothing
for a field without arguments, else the owner-prefixed argument-bag
declaration. -/
def renderInputArgInterface (t : GraphQLTypeObject) (f : GraphQLTypeField)
    (modelMap : ModelMap) : Option ArgsDecl :=
  if f.arguments.length == 0 then none
  else some
    { declName := getInputArgName t f
      argLines := f.arguments.map (fun a =>
        printFieldLikeType (TS.argAsField a) modelMap) }

/-- Embeds renderResolverFunctionInterface (flow generator lines 326-370):
the owner-prefixed resolver name, the signature components, and the
Subscription-special-cased shape. -/
def renderResolverFunctionInterface (f : GraphQLTypeField)
    (t : GraphQLTypeObject) (modelMap : ModelMap)
    (context : Option ContextDefinition) : ResolverFnDecl :=
  let resolverName := upperFirst t.name ++ "_" ++ upperFirst f.name
    ++ "_Resolver"
  let parent := getModelName t.type modelMap
  let argsType := if 0 < f.arguments.length then getInputArgName t f else "{}"
  let defn := resolverDefinitionText parent argsType (getContextName context)
  let returnType := printFieldLikeType f modelMap
  if t.name == "Subscription" then
    { resolverName := resolverName, parent := parent, argsType := argsType
      returnType := returnType
      shape := ResolverShape.twoFunction
        { memberName := "subscribe", optional := false
          signature := defn ++ " => AsyncIterator<" ++ returnType
            ++ "> | Promise<AsyncIterator<" ++ returnType ++ ">>" }
        { memberName := "resolve", optional := true
          signature := defn ++ " => " ++ resolverReturnType returnType } }
  else
    { resolverName := resolverName, parent := parent, argsType := argsType
      returnType := returnType
      shape := ResolverShape.singleFunction
        (defn ++ " => " ++ resolverReturnType returnType) }

/-- Embeds the default-resolver part of renderNamespace (flow generator
lines 174-178): the call to the synthesizer is additionally gated on the
default-resolver flag at the call site. -/
def renderNamespaceDefaultResolvers (t : GraphQLTypeObject)
    (args : GenerateArgs) : Option DefaultResolverBundle :=
  if args.defaultResolversEnabled then
    renderDefaultResolvers t args (upperFirst t.name ++ "_defaultResolvers")
  else none

/-- Embeds renderResolvers (flow generator lines 435-451): the entries of the
aggregate resolver map, in order: required object entries, optional interface
entries, optional union entries. -/
def renderResolversEntries (args : GenerateArgs) : List ResolverMapEntry :=
  ((args.types.filter (fun t => t.type.isObject)).map (fun t =>
      { key := t.name, optional := false
        target := upperFirst t.name ++ "_Resolvers" }))
    ++ (args.interfaces.map (fun i =>
      { key := i.name, optional := true
        target := upperFirst i.name ++ "_Resolvers" }))
    ++ (args.unions.map (fun u =>
      { key := u.name, optional := true
        target := upperFirst u.name ++ "_Resolvers" }))

end Flow

/- ===== general lemmas about the embedding ===== -/

theorem lookupEntry_eq_none {β : Type} (m : List (String × β)) (k : String)
    (h : ∀ kv ∈ m, kv.1 ≠ k) : lookupEntry m k = none := by
  unfold lookupEntry
  have hf : m.find? (fun kv => kv.1 == k) = none :=
    List.find?_eq_none.mpr (by intro x hx; simpa using h x hx)
  rw [hf]
  rfl

/-- Looking up a key-unique entry list built by filtering and tagging a list
with a key function: the lookup of a member's key finds exactly that member's
image, or nothing when it was filtered out. -/
theorem lookup_keyed {α β : Type} (key : α → String) (f : α → β) (p : α → Bool)
    (l : List α) (t : α) (ht : t ∈ l) (hnd : (l.map key).Nodup) :
    lookupEntry ((l.filter p).map (fun u => (key u, f u))) (key t)
      = if p t then some (f t) else none := by
  induction l with
  | nil => simp at ht
  | cons u rest ih =>
    rw [List.map_cons, List.nodup_cons] at hnd
    rcases List.mem_cons.mp ht with rfl | hmem
    · by_cases hp : p t
      · rw [List.filter_cons_of_pos hp, List.map_cons, if_pos hp]
        simp [lookupEntry]
      · rw [List.filter_cons_of_neg (by simpa using hp), if_neg hp]
        apply lookupEntry_eq_none
        intro kv hkv
        rw [List.mem_map] at hkv
        obtain ⟨v, hv, rfl⟩ := hkv
        have hv' : v ∈ rest := (List.mem_filter.mp hv).1
        intro e
        exact hnd.1 (e ▸ List.mem_map.mpr ⟨v, hv', rfl⟩)
    · have hne : (key u == key t) = false := by
        simp only [beq_eq_false_iff_ne]
        intro e
        exact hnd.1 (e ▸ List.mem_map.mpr ⟨t, hmem, rfl⟩)
      by_cases hp : p u
      · rw [List.filter_cons_of_pos hp, List.map_cons]
        unfold lookupEntry
        rw [List.find?_cons_of_neg _ (by simp [hne])]
        exact ih hmem hnd.2
      · rw [List.filter_cons_of_neg (by simpa using hp)]
        exact ih hmem hnd.2

theorem string_append_cancel_right {a b s : String} (h : a ++ s = b ++ s) :
    a = b := by
  apply String.ext
  have hd := congrArg String.data h
  rw [String.data_append, String.data_append] at hd
  exact List.append_cancel_right hd

theorem string_append_cancel_left {s a b : String} (h : s ++ a = s ++ b) :
    a = b := by
  apply String.ext
  have hd := congrArg String.data h
  rw [String.data_append, String.data_append] at hd
  exact List.append_cancel_left hd

theorem mem_firstSeenDedup (x : String) (l : List String) :
    x ∈ firstSeenDedup l ↔ x ∈ l := by
  induction l with
  | nil => simp [firstSeenDedup]
  | cons a xs ih =>
    simp only [firstSeenDedup, List.mem_cons, List.mem_filter, bne_iff_ne, ih]
    by_cases hxa : x = a
    · simp [hxa]
    · simp [hxa]

theorem nodup_firstSeenDedup (l : List String) :
    (firstSeenDedup l).Nodup := by
  induction l with
  | nil => simp [firstSeenDedup]
  | cons a xs ih =>
    simp only [firstSeenDedup]
    refine List.nodup_cons.mpr ⟨?_, ih.filter _⟩
    intro hmem
    simp [List.mem_filter] at hmem

theorem count_firstSeenDedup (x : String) (l : List String) :
    (firstSeenDedup l).count x = if x ∈ l then 1 else 0 := by
  by_cases h : x ∈ l
  · simp only [h, if_true]
    exact List.count_eq_one_of_mem (nodup_firstSeenDedup l)
      ((mem_firstSeenDedup x l).mpr h)
  · simp only [h, if_false]
    exact List.count_eq_zero.mpr (fun hc => h ((mem_firstSeenDedup x l).mp hc))

/-- The index of the first occurrence of an element. -/
def firstIdx (a : String) : List String → Nat
  | [] => 0
  | b :: l => if b = a then 0 else firstIdx a l + 1

theorem firstIdx_filter_lt (p : String → Bool) (l : List String) (x y : String)
    (hx : x ∈ l.filter p) (hy : y ∈ l.filter p) :
    (firstIdx x (l.filter p) < firstIdx y (l.filter p)
      ↔ firstIdx x l < firstIdx y l) := by
  induction l with
  | nil => simp at hx
  | cons h t ih =>
    by_cases hp : p h
    · rw [List.filter_cons_of_pos hp] at hx hy ⊢
      by_cases hhx : h = x
      · subst hhx
        by_cases hxy : h = y
        · subst hxy; simp
        · simp [firstIdx, hxy]
      · by_cases hhy : h = y
        · subst hhy
          simp [firstIdx, hhx]
        · have hx' : x ∈ t.filter p := by
            rcases List.mem_cons.mp hx with rfl | hm
            · exact absurd rfl hhx
            · exact hm
          have hy' : y ∈ t.filter p := by
            rcases List.mem_cons.mp hy with rfl | hm
            · exact absurd rfl hhy
            · exact hm
          simp only [firstIdx, if_neg hhx, if_neg hhy,
            Nat.add_lt_add_iff_right]
          exact ih hx' hy'
    · rw [List.filter_cons_of_neg (by simpa using hp)] at hx hy ⊢
      have hpx : p x = true := (List.mem_filter.mp hx).2
      have hpy : p y = true := (List.mem_filter.mp hy).2
      have hhx : h ≠ x := fun e => by rw [e] at hp; exact hp hpx
      have hhy : h ≠ y := fun e => by rw [e] at hp; exact hp hpy
      simp only [firstIdx, if_neg hhx, if_neg hhy, Nat.add_lt_add_iff_right]
      exact ih hx hy

/-- First-seen deduplication preserves the relative order of first
occurrences. -/
theorem firstIdx_firstSeenDedup_lt (l : List String) (x y : String)
    (hx : x ∈ l) (hy : y ∈ l) :
    (firstIdx x (firstSeenDedup l) < firstIdx y (firstSeenDedup l) ↔
      firstIdx x l < firstIdx y l) := by
  induction l with
  | nil => simp at hx
  | cons a xs ih =>
    simp only [firstSeenDedup]
    by_cases hax : a = x
    · subst hax
      by_cases hay : a = y
      · subst hay; simp
      · simp [firstIdx, hay]
    · by_cases hay : a = y
      · subst hay
        simp [firstIdx, hax]
      · have hxs : x ∈ xs := by
          rcases List.mem_cons.mp hx with rfl | hm
          · exact absurd rfl hax
          · exact hm
        have hys : y ∈ xs := by
          rcases List.mem_cons.mp hy with rfl | hm
          · exact absurd rfl hay
          · exact hm
        have hxf : x ∈ (firstSeenDedup xs).filter (fun b => b != a) :=
          List.mem_filter.mpr ⟨(mem_firstSeenDedup x xs).mpr hxs,
            by simpa [bne_iff_ne] using fun e => hax e.symm⟩
        have hyf : y ∈ (firstSeenDedup xs).filter (fun b => b != a) :=
          List.mem_filter.mpr ⟨(mem_firstSeenDedup y xs).mpr hys,
            by simpa [bne_iff_ne] using fun e => hay e.symm⟩
        simp only [firstIdx, if_neg hax, if_neg hay, Nat.add_lt_add_iff_right]
        rw [firstIdx_filter_lt _ (firstSeenDedup xs) x y hxf hyf]
        exact ih hxs hys

/-- A value found in the input-type registry carries the key as its name. -/
theorem inputTypesMap_name (args : GenerateArgs) (ta : String)
    (u : GraphQLTypeObject)
    (h : lookupEntry (inputTypesMap args) ta = some u) : u.name = ta := by
  unfold lookupEntry at h
  cases hf : (inputTypesMap args).find? (fun kv => kv.1 == ta) with
  | none => rw [hf] at h; simp at h
  | some kv =>
    rw [hf] at h
    simp only [Option.map_some'] at h
    have hpred := List.find?_some hf
    have hmem := List.mem_of_find?_eq_some hf
    unfold inputTypesMap at hmem
    rw [List.mem_map] at hmem
    obtain ⟨v, _, rfl⟩ := hmem
    cases h
    simpa using hpred

/-- A type with no input-typed arguments reaches no input types. -/
theorem typeInputTypeNames_eq_nil (t : GraphQLTypeObject)
    (h : hasInputArgs t = false) : typeInputTypeNames t = [] := by
  unfold hasInputArgs at h
  unfold typeInputTypeNames
  rw [List.flatten_eq_nil_iff]
  intro l hl
  rw [List.mem_map] at hl
  obtain ⟨f, hf, rfl⟩ := hl
  unfold fieldInputTypeNames
  simp only [decide_eq_false_iff_not, Nat.not_lt, Nat.le_zero,
    List.length_eq_zero] at h
  have hemp := List.filter_eq_nil_iff.mp h
  have := hemp f hf
  simp only [decide_eq_true_eq, Nat.not_lt, Nat.le_zero,
    List.length_eq_zero] at this
  rw [this]
  rfl

/-- The declaration names of an object type's TypeScript input-type block are
exactly the first-seen deduplication of the input-type names reachable
through the type's fields' arguments. -/
theorem ts_inputTypeDeclNames_eq (args : GenerateArgs) (t : GraphQLTypeObject)
    (ht : t ∈ args.types) (hobj : t.type.isObject = true)
    (hnd : (args.types.map GraphQLTypeObject.name).Nodup) :
    TS.inputTypeDeclNames t args = firstSeenDedup (typeInputTypeNames t) := by
  have hl : lookupEntry (typeToInputTypeAssociation args) t.name
      = if t.type.isObject && hasInputArgs t
        then some (typeInputTypeNames t) else none :=
    lookup_keyed GraphQLTypeObject.name typeInputTypeNames
      (fun u => u.type.isObject && hasInputArgs u) args.types t ht hnd
  rw [hobj] at hl
  by_cases hin : hasInputArgs t
  · rw [hin] at hl
    simp only [Bool.and_self, if_true] at hl
    unfold TS.inputTypeDeclNames TS.renderInputTypeInterfaces
      getDistinctInputTypes
    rw [hl]
    simp only [Option.getD_some, List.map_map]
    have hcongr : ∀ ta ∈ firstSeenDedup (typeInputTypeNames t),
        ((fun d => InputTypeDecl.declName d) ∘ (fun ta =>
          let inputType := (lookupEntry (inputTypesMap args) ta).getD
            { name := ta, type := { name := ta }, fields := [] }
          ({ declName := inputType.name
             fieldLines := inputType.fields.map (fun f =>
               f.name ++ ": " ++ printFieldLikeType f args.modelMap) }
            : InputTypeDecl))) ta = (fun x => x) ta := by
      intro ta _
      simp only [Function.comp]
      cases hu : lookupEntry (inputTypesMap args) ta with
      | none => simp [hu]
      | some u => simp [hu, inputTypesMap_name args ta u hu]
    rw [List.map_congr_left hcongr, List.map_id']
  · have hin' : hasInputArgs t = false := by
      simpa using hin
    rw [hin'] at hl
    simp at hl
    unfold TS.inputTypeDeclNames TS.renderInputTypeInterfaces
    rw [hl, typeInputTypeNames_eq_nil t hin']
    simp [firstSeenDedup]

/- ===== concrete sample inputs used by the witnesses ===== -/

def filterInputDef : GraphQLTypeDefinition := { name := "Filter", isInput := true }

def extraInputDef : GraphQLTypeDefinition := { name := "Extra", isInput := true }

def stringScalarDef : GraphQLTypeDefinition := { name := "String", isScalar := true }

def filterInputType : GraphQLTypeObject :=
  { name := "Filter", type := filterInputDef
    fields := [{ name := "q", arguments := [], type := stringScalarDef }] }

def extraInputType : GraphQLTypeObject :=
  { name := "Extra", type := extraInputDef, fields := [] }

def postDef : GraphQLTypeDefinition := { name := "Post", isObject := true }

def userDef : GraphQLTypeDefinition := { name := "User", isObject := true }

def postsField : GraphQLTypeField :=
  { name := "posts"
    arguments := [ { name := "where", type := filterInputDef } ]
    type := postDef }

def usersField : GraphQLTypeField :=
  { name := "users"
    arguments := [ { name := "where", type := filterInputDef }
                 , { name := "extra", type := extraInputDef } ]
    type := userDef }

def sampleQueryType : GraphQLTypeObject :=
  { name := "Query", type := { name := "Query", isObject := true }
    fields := [postsField, usersField] }

def sampleArgs : GenerateArgs :=
  { types := [sampleQueryType, filterInputType, extraInputType]
    interfaces := [], unions := [], modelMap := [] }

def lowerUserType : GraphQLTypeObject :=
  { name := "user", type := { name := "user", isObject := true }
    fields := [ { name := "find"
                  arguments := [ { name := "where", type := filterInputDef } ]
                  type := stringScalarDef } ] }

def upperUserType : GraphQLTypeObject :=
  { name := "User", type := { name := "User", isObject := true }
    fields := [ { name := "find"
                  arguments := [ { name := "where", type := filterInputDef } ]
                  type := stringScalarDef } ] }

def collisionArgs : GenerateArgs :=
  { types := [lowerUserType, upperUserType, filterInputType]
    interfaces := [], unions := [], modelMap := [] }

def fooField : GraphQLTypeField :=
  { name := "foo"
    arguments := [ { name := "n", type := stringScalarDef } ]
    type := stringScalarDef }

def fooCapField : GraphQLTypeField :=
  { name := "Foo"
    arguments := [ { name := "n", type := stringScalarDef } ]
    type := stringScalarDef }

def fooOwnerType : GraphQLTypeObject :=
  { name := "Thing", type := { name := "Thing", isObject := true }
    fields := [fooField, fooCapField] }

def idField : GraphQLTypeField :=
  { name := "id", arguments := [], type := stringScalarDef }

def nodeInterface : GraphQLInterfaceObject :=
  { name := "Node", type := { name := "Node", isInterface := true }
    fields := [idField]
    types := [postDef, userDef] }

def sampleModelMap : ModelMap :=
  [ ("Post", { modelName := "PostModel", importPath := "./models"
               definition := { kind := "InterfaceDefinition" } })
  , ("User", { modelName := "UserModel", importPath := "./models"
               definition := { kind := "InterfaceDefinition" } }) ]

def interfaceArgs : GenerateArgs :=
  { types := [], interfaces := [nodeInterface], unions := []
    modelMap := sampleModelMap }

def postObjectType : GraphQLTypeObject :=
  { name := "Post", type := postDef, fields := [idField]
    interfaces := ["Node"] }

def ghostDef : GraphQLTypeDefinition := { name := "Ghost", isObject := true }

def ghostInterface : GraphQLInterfaceObject :=
  { name := "Named", type := { name := "Named", isInterface := true }
    fields := [idField]
    types := [postDef, ghostDef] }

def ghostArgs : GenerateArgs :=
  { types := [], interfaces := [ghostInterface], unions := []
    modelMap := sampleModelMap }

/- ===== the claims ===== -/

/-- C1: for every object type, each input type reachable through that type's
fields' arguments is declared exactly once within the type's emitted
input-type declaration block — never zero times, never more than once — and
the declarations appear in first-seen order across the type's fields and
arguments (the embedding is a pure function of the ordered input, so the
order cannot depend on any dictionary iteration order). -/
theorem C1_distinct_input_type_declarations (args : GenerateArgs)
    (t : GraphQLTypeObject) (ht : t ∈ args.types)
    (hobj : t.type.isObject = true)
    (hnd : (args.types.map GraphQLTypeObject.name).Nodup) :
    (∀ I, (TS.inputTypeDeclNames t args).count I
        = if I ∈ typeInputTypeNames t then 1 else 0)
    ∧ (∀ I J, I ∈ typeInputTypeNames t → J ∈ typeInputTypeNames t →
        (firstIdx I (TS.inputTypeDeclNames t args)
            < firstIdx J (TS.inputTypeDeclNames t args)
          ↔ firstIdx I (typeInputTypeNames t)
            < firstIdx J (typeInputTypeNames t))) := by
  have he := ts_inputTypeDeclNames_eq args t ht hobj hnd
  constructor
  · intro I
    rw [he]
    exact count_firstSeenDedup I _
  · intro I J hI hJ
    rw [he]
    exact firstIdx_firstSeenDedup_lt _ I J hI hJ

/-- C1 witness: in the sample schema, `Filter` is reached through two
different fields of `Query` yet declared exactly once. -/
theorem C1_distinct_input_type_declarations_witness :
    (TS.inputTypeDeclNames sampleQueryType sampleArgs).count "Filter" = 1 := by
  have h := (C1_distinct_input_type_declarations sampleArgs sampleQueryType
    (by decide) (by decide) (by decide)).1 "Filter"
  rw [h]
  decide

/-- C3: in both dialects, a field of the object type named Subscription
projects to the two-function shape — a required `subscribe` member producing
an async-iterator source plus an optional `resolve` transform — while a field
of every other object type projects to a single request/response function. -/
theorem C3_subscription_two_function_shape (f : GraphQLTypeField)
    (t : GraphQLTypeObject) (modelMap : ModelMap)
    (context : Option ContextDefinition) :
    ((TS.renderResolverFunctionInterface f t modelMap
        context).shape.isSubscriptionShape = (t.name == "Subscription"))
    ∧ ((TS.renderResolverFunctionInterface f t modelMap
        context).shape.isSingleFunction = (t.name != "Subscription"))
    ∧ ((Flow.renderResolverFunctionInterface f t modelMap
        context).shape.isSubscriptionShape = (t.name == "Subscription"))
    ∧ ((Flow.renderResolverFunctionInterface f t modelMap
        context).shape.isSingleFunction = (t.name != "Subscription")) := by
  unfold TS.renderResolverFunctionInterface Flow.renderResolverFunctionInterface
  by_cases h : t.name == "Subscription" <;>
    simp [h, ResolverShape.isSubscriptionShape, ResolverShape.isSingleFunction,
      bne]

/-- C8: when the external formatting step raises, `format` returns the
original generated text unchanged (content is neither lost nor corrupted)
and reports a diagnostic to the caller; the failure is not propagated (the
embedding is a total function yielding a result in every case). -/
theorem C8_format_failure_recovered
    (prettierFormat : String → Except String String) (code e : String)
    (herr : prettierFormat code = Except.error e) :
    (format prettierFormat code).output = code
      ∧ (format prettierFormat code).diagnostic.isSome = true := by
  unfold format
  rw [herr]
  exact ⟨rfl, rfl⟩

/-- C8 witness: a concrete failing formatter leaves the text untouched. -/
theorem C8_format_failure_recovered_witness :
    (format (fun _ => Except.error "unexpected token")
      "const x = ").output = "const x = " :=
  (C8_format_failure_recovered (fun _ => Except.error "unexpected token")
    "const x = " "unexpected token" rfl).1

/-- C2 counterexample: the object types `user` and `User` are distinct and
both reference the input type `Filter`, yet the Flow dialect emits the
declaration name `User_Filter` for both owners — the two declarations
collide instead of being distinct. -/
theorem C2_counterexample :
    lowerUserType.name ≠ upperUserType.name
    ∧ Flow.inputTypeDeclNames lowerUserType collisionArgs = ["User_Filter"]
    ∧ Flow.inputTypeDeclNames upperUserType collisionArgs = ["User_Filter"] := by
  decide

/-- C2 (amended): for two distinct object types referencing the same input
type, the TypeScript dialect always scopes the two declarations in distinct
per-owner namespaces; the Flow dialect's `Owner_Input` prefixed names are
distinct provided the owners' names remain distinct after capitalizing the
first letter (first-letter case pairs such as `user`/`User` defeat the
prefix scheme); a collision never causes an error (the renderer is total). -/
theorem C2_cross_owner_scoping (A B : GraphQLTypeObject) (x : String)
    (itm : List (String × GraphQLTypeObject))
    (hne : A.name ≠ B.name)
    (hcap : upperFirst A.name ≠ upperFirst B.name) :
    TS.namespaceNameOf A ≠ TS.namespaceNameOf B
    ∧ Flow.inputTypeDeclName A itm x ≠ Flow.inputTypeDeclName B itm x := by
  constructor
  · intro h
    exact hne (string_append_cancel_right h)
  · intro h
    unfold Flow.inputTypeDeclName at h
    exact hcap (string_append_cancel_right (string_append_cancel_right h))

/-- C2 witness: `Query` and `user` get distinct TypeScript namespaces and
distinct Flow input-type declaration names. -/
theorem C2_cross_owner_scoping_witness :
    TS.namespaceNameOf sampleQueryType ≠ TS.namespaceNameOf lowerUserType
    ∧ Flow.inputTypeDeclName sampleQueryType (inputTypesMap collisionArgs)
        "Filter"
      ≠ Flow.inputTypeDeclName lowerUserType (inputTypesMap collisionArgs)
        "Filter" :=
  C2_cross_owner_scoping sampleQueryType lowerUserType "Filter"
    (inputTypesMap collisionArgs) (by decide) (by decide)

/-- C4 counterexample: the fields `foo` and `Foo` of one object type have
distinct names (the schema invariant holds), yet both argument bags are
declared `ArgsFoo` in the same TypeScript namespace, and both are named
`Thing_Args_Foo` in the Flow dialect — the derived bag name is not unique
across the output. -/
theorem C4_counterexample :
    fooField.name ≠ fooCapField.name
    ∧ fooField ∈ fooOwnerType.fields
    ∧ fooCapField ∈ fooOwnerType.fields
    ∧ (TS.renderInputArgInterface fooField []).map ArgsDecl.declName
        = some "ArgsFoo"
    ∧ (TS.renderInputArgInterface fooCapField []).map ArgsDecl.declName
        = some "ArgsFoo"
    ∧ Flow.getInputArgName fooOwnerType fooField
        = Flow.getInputArgName fooOwnerType fooCapField := by
  decide

/-- C4 (amended): an argument-bag declaration is emitted iff the field has at
least one argument; a zero-argument field's resolver takes the empty-object
args type instead; and the namespace-qualified bag names are unique across
the output provided field names stay distinct after capitalizing the first
letter within each type (bare within-type uniqueness of field names is not
enough, as first-letter case pairs collide). -/
theorem C4_arg_bag_emission_and_uniqueness
    (t1 t2 : GraphQLTypeObject) (f1 f2 : GraphQLTypeField) (mm : ModelMap)
    (context : Option ContextDefinition)
    (h1 : f1 ∈ t1.fields) (h2 : f2 ∈ t2.fields)
    (hty : t1.name = t2.name → t1 = t2)
    (hnd : (t1.fields.map (fun f => upperFirst f.name)).Nodup) :
    ((TS.renderInputArgInterface f1 mm).isSome = true ↔ f1.arguments ≠ [])
    ∧ (TS.renderResolverFunctionInterface f1 t1 mm context).argsType
        = (if f1.arguments.isEmpty then "{}" else TS.argsDeclName f1)
    ∧ (TS.namespaceNameOf t1 = TS.namespaceNameOf t2 →
        TS.argsDeclName f1 = TS.argsDeclName f2 → t1 = t2 ∧ f1 = f2) := by
  refine ⟨?_, ?_, ?_⟩
  · unfold TS.renderInputArgInterface
    cases harg : f1.arguments with
    | nil => simp
    | cons a as => simp
  · unfold TS.renderResolverFunctionInterface
    by_cases hsub : t1.name == "Subscription" <;>
      cases harg : f1.arguments <;> simp [hsub, harg]
  · intro hns hargs
    have hname : t1.name = t2.name := string_append_cancel_right hns
    have hteq : t1 = t2 := hty hname
    subst hteq
    have hup : upperFirst f1.name = upperFirst f2.name :=
      string_append_cancel_left hargs
    exact ⟨rfl, List.inj_on_of_nodup_map hnd h1 h2 hup⟩

/-- C4 witness: in the sample `Query` type the emission criterion and the
qualified-name uniqueness hold. -/
theorem C4_arg_bag_emission_and_uniqueness_witness :
    (TS.renderInputArgInterface postsField []).isSome = true := by
  have h := (C4_arg_bag_emission_and_uniqueness sampleQueryType
    sampleQueryType postsField usersField [] none (by decide) (by decide)
    (fun _ => rfl) (by decide)).1
  rw [h]
  decide

theorem ts_resolvers_keys (args : GenerateArgs) :
    (TS.renderResolversEntries args).map ResolverMapEntry.key
      = ((args.types.filter (fun t => t.type.isObject)).map
          GraphQLTypeObject.name)
        ++ (args.interfaces.map GraphQLInterfaceObject.name)
        ++ (args.unions.map GraphQLUnionObject.name) := by
  unfold TS.renderResolversEntries
  simp only [List.map_append, List.map_map]
  rfl

theorem flow_resolvers_keys (args : GenerateArgs) :
    (Flow.renderResolversEntries args).map ResolverMapEntry.key
      = ((args.types.filter (fun t => t.type.isObject)).map
          GraphQLTypeObject.name)
        ++ (args.interfaces.map GraphQLInterfaceObject.name)
        ++ (args.unions.map GraphQLUnionObject.name) := by
  unfold Flow.renderResolversEntries
  simp only [List.map_append, List.map_map]
  rfl

/-- C5: in both dialects the aggregate resolver-map declaration contains
exactly one entry per object type, per interface and per union: object
entries are required (non-optional) and map the type name to its
resolver-shape declaration, while interface and union entries are optional. -/
theorem C5_aggregate_resolver_map (args : GenerateArgs)
    (hnd : (((args.types.filter (fun t => t.type.isObject)).map
          GraphQLTypeObject.name)
        ++ (args.interfaces.map GraphQLInterfaceObject.name)
        ++ (args.unions.map GraphQLUnionObject.name)).Nodup) :
    (∀ t ∈ args.types, t.type.isObject = true →
      (({ key := t.name, optional := false,
          target := t.name ++ "Resolvers.Type" } : ResolverMapEntry)
          ∈ TS.renderResolversEntries args)
      ∧ ((TS.renderResolversEntries args).map
          ResolverMapEntry.key).count t.name = 1
      ∧ (({ key := t.name, optional := false,
            target := upperFirst t.name ++ "_Resolvers" } : ResolverMapEntry)
          ∈ Flow.renderResolversEntries args)
      ∧ ((Flow.renderResolversEntries args).map
          ResolverMapEntry.key).count t.name = 1)
    ∧ (∀ i ∈ args.interfaces,
      (({ key := i.name, optional := true,
          target := i.name ++ "Resolvers.Type" } : ResolverMapEntry)
          ∈ TS.renderResolversEntries args)
      ∧ ((TS.renderResolversEntries args).map
          ResolverMapEntry.key).count i.name = 1)
    ∧ (∀ u ∈ args.unions,
      (({ key := u.name, optional := true,
          target := u.name ++ "Resolvers.Type" } : ResolverMapEntry)
          ∈ TS.renderResolversEntries args)
      ∧ ((TS.renderResolversEntries args).map
          ResolverMapEntry.key).count u.name = 1)
    ∧ (∀ e ∈ TS.renderResolversEntries args,
        e.target = e.key ++ "Resolvers.Type")
    ∧ (∀ e ∈ Flow.renderResolversEntries args,
        e.target = upperFirst e.key ++ "_Resolvers") := by
  refine ⟨?_, ?_, ?_, ?_, ?_⟩
  · intro t ht hobj
    have hkey : t.name ∈ ((args.types.filter (fun t => t.type.isObject)).map
        GraphQLTypeObject.name)
        ++ (args.interfaces.map GraphQLInterfaceObject.name)
        ++ (args.unions.map GraphQLUnionObject.name) := by
      apply List.mem_append_left
      apply List.mem_append_left
      exact List.mem_map.mpr ⟨t, List.mem_filter.mpr ⟨ht, hobj⟩, rfl⟩
    refine ⟨?_, ?_, ?_, ?_⟩
    · unfold TS.renderResolversEntries
      apply List.mem_append_left
      apply List.mem_append_left
      exact List.mem_map.mpr ⟨t, List.mem_filter.mpr ⟨ht, hobj⟩, rfl⟩
    · rw [ts_resolvers_keys]
      exact List.count_eq_one_of_mem hnd hkey
    · unfold Flow.renderResolversEntries
      apply List.mem_append_left
      apply List.mem_append_left
      exact List.mem_map.mpr ⟨t, List.mem_filter.mpr ⟨ht, hobj⟩, rfl⟩
    · rw [flow_resolvers_keys]
      exact List.count_eq_one_of_mem hnd hkey
  · intro i hi
    refine ⟨?_, ?_⟩
    · unfold TS.renderResolversEntries
      apply List.mem_append_left
      apply List.mem_append_right
      exact List.mem_map.mpr ⟨i, hi, rfl⟩
    · rw [ts_resolvers_keys]
      apply List.count_eq_one_of_mem hnd
      apply List.mem_append_left
      apply List.mem_append_right
      exact List.mem_map.mpr ⟨i, hi, rfl⟩
  · intro u hu
    refine ⟨?_, ?_⟩
    · unfold TS.renderResolversEntries
      apply List.mem_append_right
      exact List.mem_map.mpr ⟨u, hu, rfl⟩
    · rw [ts_resolvers_keys]
      apply List.count_eq_one_of_mem hnd
      apply List.mem_append_right
      exact List.mem_map.mpr ⟨u, hu, rfl⟩
  · intro e he
    unfold TS.renderResolversEntries at he
    rcases List.mem_append.mp he with h1 | hu
    · rcases List.mem_append.mp h1 with hobjs | hints
      · obtain ⟨t, _, rfl⟩ := List.mem_map.mp hobjs; rfl
      · obtain ⟨i, _, rfl⟩ := List.mem_map.mp hints; rfl
    · obtain ⟨u, _, rfl⟩ := List.mem_map.mp hu; rfl
  · intro e he
    unfold Flow.renderResolversEntries at he
    rcases List.mem_append.mp he with h1 | hu
    · rcases List.mem_append.mp h1 with hobjs | hints
      · obtain ⟨t, _, rfl⟩ := List.mem_map.mp hobjs; rfl
      · obtain ⟨i, _, rfl⟩ := List.mem_map.mp hints; rfl
    · obtain ⟨u, _, rfl⟩ := List.mem_map.mp hu; rfl

/-- C5 witness: in the sample schema, `Query` has exactly one aggregate
entry. -/
theorem C5_aggregate_resolver_map_witness :
    ((TS.renderResolversEntries sampleArgs).map
      ResolverMapEntry.key).count "Query" = 1 := by
  have h := ((C5_aggregate_resolver_map sampleArgs (by decide)).1
    sampleQueryType (by decide) (by decide)).2.1
  exact h

theorem interfacesMap_lookup (args : GenerateArgs)
    (i : GraphQLInterfaceObject) (hi : i ∈ args.interfaces)
    (hnd : (args.interfaces.map GraphQLInterfaceObject.name).Nodup) :
    lookupEntry (interfacesMap args) i.name = some i.types := by
  have h := lookup_keyed GraphQLInterfaceObject.name
    (fun j => j.types) (fun _ => true) args.interfaces i hi hnd
  rw [List.filter_true] at h
  simpa [interfacesMap] using h

/-- C6 counterexample: the interface `Named` has a bound implementer `Post`
and an unbound implementer `Ghost`; the field entries' parent expression uses
the `undefined` fallback (part_000 line 524) while the `__resolveType`
binding uses the default fallback (part_000 lines 234-236), so the two
unions differ — the discriminator is not typed over the same union as the
parent. -/
theorem C6_counterexample :
    (TS.renderResolverTypeInterfaceFunction idField
        (TS.interfaceAsTypeObject ghostInterface) ghostArgs.modelMap
        (interfacesMap ghostArgs) ghostArgs.context).parent
      = "PostModel | undefined"
    ∧ (TS.renderInterfaceNamespace ghostInterface
        ghostArgs).resolveTypeUnion = "PostModel | {}"
    ∧ (TS.renderResolverTypeInterfaceFunction idField
        (TS.interfaceAsTypeObject ghostInterface) ghostArgs.modelMap
        (interfacesMap ghostArgs) ghostArgs.context).parent
      ≠ (TS.renderInterfaceNamespace ghostInterface
          ghostArgs).resolveTypeUnion := by
  decide

/-- C6 (amended): the parent-value type expression of every field entry of an
interface resolver declaration is the union over the implementing types of
their resolved model names with the `undefined` fallback — never the
interface's own model; the `__resolveType` discriminator binding is typed
over the implementer union with the default fallback; and the two unions
coincide ("that same union") whenever every implementing type has a model
binding (an unbound implementer makes them differ, `undefined` vs the
default). -/
theorem C6_interface_parent_union (args : GenerateArgs)
    (i : GraphQLInterfaceObject) (f : GraphQLTypeField)
    (hi : i ∈ args.interfaces)
    (hnd : (args.interfaces.map GraphQLInterfaceObject.name).Nodup)
    (hint : i.type.isInterface = true) :
    (TS.renderResolverTypeInterfaceFunction f (TS.interfaceAsTypeObject i)
        args.modelMap (interfacesMap args) args.context).parent
      = String.intercalate " | "
          (i.types.map (fun d => getModelName d args.modelMap "undefined"))
    ∧ (TS.renderInterfaceNamespace i args).resolveTypeUnion
      = String.intercalate " | "
          (i.types.map (fun d => getModelName d args.modelMap))
    ∧ ((∀ d ∈ i.types, d.isEnum = false
          ∧ (lookupEntry args.modelMap d.name).isSome = true) →
        (TS.renderResolverTypeInterfaceFunction f
            (TS.interfaceAsTypeObject i) args.modelMap (interfacesMap args)
            args.context).parent
          = (TS.renderInterfaceNamespace i args).resolveTypeUnion) := by
  have hparent : (TS.renderResolverTypeInterfaceFunction f
      (TS.interfaceAsTypeObject i) args.modelMap (interfacesMap args)
      args.context).parent
      = String.intercalate " | "
          (i.types.map (fun d => getModelName d args.modelMap
            "undefined")) := by
    have hl : lookupEntry (interfacesMap args)
        (TS.interfaceAsTypeObject i).name = some i.types :=
      interfacesMap_lookup args i hi hnd
    have hintf : (TS.interfaceAsTypeObject i).type.isInterface = true := hint
    unfold TS.renderResolverTypeInterfaceFunction
    by_cases hsub : (TS.interfaceAsTypeObject i).name == "Subscription" <;>
      simp only [hsub, hintf, hl, if_true, if_false, Bool.false_eq_true,
        reduceIte, Option.getD_some]
  refine ⟨hparent, rfl, ?_⟩
  intro hbound
  have hmaps : i.types.map (fun d => getModelName d args.modelMap "undefined")
      = i.types.map (fun d => getModelName d args.modelMap) := by
    apply List.map_congr_left
    intro d hd
    obtain ⟨henum, hsome⟩ := hbound d hd
    unfold getModelName
    rw [henum]
    cases hm : lookupEntry args.modelMap d.name with
    | none => rw [hm] at hsome; simp at hsome
    | some m => simp [hm]
  rw [hparent, hmaps]
  rfl

/-- C6 witness: the fully bound `Node` interface's field entries take the
union `PostModel | UserModel` as parent, matching the discriminator's
union. -/
theorem C6_interface_parent_union_witness :
    (TS.renderResolverTypeInterfaceFunction idField
        (TS.interfaceAsTypeObject nodeInterface) interfaceArgs.modelMap
        (interfacesMap interfaceArgs) interfaceArgs.context).parent
      = (TS.renderInterfaceNamespace nodeInterface
          interfaceArgs).resolveTypeUnion :=
  (C6_interface_parent_union interfaceArgs nodeInterface idField
    (by decide) (by decide) (by decide)).2.2 (by decide)

/-- C7: in both dialects' per-type blocks, no default-resolver bundle is
emitted at all when the default-resolver flag is disabled; when it is
enabled, both blocks carry a bundle containing exactly the zero-argument
fields whose name matches a property on the type's bound model. -/
theorem C7_default_resolver_flag (args : GenerateArgs)
    (t : GraphQLTypeObject) :
    (args.defaultResolversEnabled = false →
      TS.renderNamespaceDefaultResolvers t args = none
      ∧ Flow.renderNamespaceDefaultResolvers t args = none)
    ∧ (args.defaultResolversEnabled = true →
      ∃ bts bfl, TS.renderNamespaceDefaultResolvers t args = some bts
        ∧ Flow.renderNamespaceDefaultResolvers t args = some bfl
        ∧ bts.fields = bfl.fields
        ∧ ∀ f, f ∈ bts.fields ↔ (f ∈ t.fields ∧ f.arguments = []
            ∧ ((lookupEntry args.modelMap t.name).map
                (fun m => m.properties.contains f.name)).getD false
              = true)) := by
  constructor
  · intro h
    unfold TS.renderNamespaceDefaultResolvers
      Flow.renderNamespaceDefaultResolvers renderDefaultResolvers
    simp [h]
  · intro h
    have hts : TS.renderNamespaceDefaultResolvers t args
        = some { variableName := "defaultResolvers"
                 fields := t.fields.filter (fun f =>
                   f.arguments.isEmpty &&
                     ((lookupEntry args.modelMap t.name).map
                       (fun m => m.properties.contains f.name)).getD
                       false) } := by
      unfold TS.renderNamespaceDefaultResolvers renderDefaultResolvers
      simp [h]
    have hfl : Flow.renderNamespaceDefaultResolvers t args
        = some { variableName := upperFirst t.name ++ "_defaultResolvers"
                 fields := t.fields.filter (fun f =>
                   f.arguments.isEmpty &&
                     ((lookupEntry args.modelMap t.name).map
                       (fun m => m.properties.contains f.name)).getD
                       false) } := by
      unfold Flow.renderNamespaceDefaultResolvers renderDefaultResolvers
      simp [h]
    refine ⟨_, _, hts, hfl, rfl, ?_⟩
    intro f
    simp only [List.mem_filter, Bool.and_eq_true, List.isEmpty_iff]

/-- C7 witness: with the flag disabled no bundle is emitted for `Query` in
either dialect. -/
theorem C7_default_resolver_flag_witness :
    TS.renderNamespaceDefaultResolvers sampleQueryType
      { sampleArgs with defaultResolversEnabled := false } = none
    ∧ Flow.renderNamespaceDefaultResolvers sampleQueryType
      { sampleArgs with defaultResolversEnabled := false } = none :=
  (C7_default_resolver_flag
    { sampleArgs with defaultResolversEnabled := false }
    sampleQueryType).1 rfl

theorem map_fst_tag {β : Type} (g : String → β) (l : List String) :
    (l.map (fun p => (p, g p))).map Prod.fst = l := by
  induction l with
  | nil => rfl
  | cons a xs ih => simp [ih]

theorem headerImportGroups_paths (args : GenerateArgs) :
    (TS.headerImportGroups args).map Prod.fst
      = firstSeenDedup ((TS.modelsToImport args).map
          (fun m => m.importPath)) := by
  unfold TS.headerImportGroups groupModelsNameByImportPath
  exact map_fst_tag _ _

/-- C9: the TypeScript header's import declarations exclude every model-map
entry whose definition is a type alias marked as an enum; every remaining
model entry's name is imported, grouped one import statement per import
path. -/
theorem C9_header_imports (args : GenerateArgs) :
    (((TS.headerImportGroups args).map Prod.fst).Nodup)
    ∧ (∀ n, (∃ g ∈ TS.headerImportGroups args, n ∈ g.2)
        ↔ ∃ kv ∈ args.modelMap, TS.isEnumAliasModel kv.2 = false
            ∧ kv.2.modelName = n) := by
  constructor
  · rw [headerImportGroups_paths]
    exact nodup_firstSeenDedup _
  · intro n
    constructor
    · rintro ⟨g, hg, hn⟩
      unfold TS.headerImportGroups groupModelsNameByImportPath at hg
      obtain ⟨p, _, rfl⟩ := List.mem_map.mp hg
      obtain ⟨m, hm, rfl⟩ := List.mem_map.mp hn
      have hm' : m ∈ TS.modelsToImport args := (List.mem_filter.mp hm).1
      unfold TS.modelsToImport at hm'
      obtain ⟨kv, hkv, rfl⟩ := List.mem_map.mp hm'
      have hkv2 := List.mem_filter.mp hkv
      exact ⟨kv, hkv2.1, by simpa using hkv2.2, rfl⟩
    · rintro ⟨kv, hkv, halias, rfl⟩
      have hm : kv.2 ∈ TS.modelsToImport args := by
        unfold TS.modelsToImport
        exact List.mem_map.mpr
          ⟨kv, List.mem_filter.mpr ⟨hkv, by simp [halias]⟩, rfl⟩
      refine ⟨(kv.2.importPath,
        ((TS.modelsToImport args).filter
          (fun m => m.importPath == kv.2.importPath)).map
            (fun m => m.modelName)), ?_, ?_⟩
      · unfold TS.headerImportGroups groupModelsNameByImportPath
        apply List.mem_map.mpr
        refine ⟨kv.2.importPath, ?_, rfl⟩
        rw [mem_firstSeenDedup]
        exact List.mem_map.mpr ⟨kv.2, hm, rfl⟩
      · exact List.mem_map.mpr
          ⟨kv.2, List.mem_filter.mpr ⟨hm, by simp⟩, rfl⟩

theorem foldl_append_flatten {α : Type} (g : String → List α)
    (l : List String) (init : List α) :
    l.foldl (fun acc i => acc ++ g i) init = init ++ (l.map g).flatten := by
  induction l generalizing init with
  | nil => simp
  | cons a xs ih => simp [ih, List.append_assoc]

theorem foldl_last_overwrite {α β : Type} (p : α → Bool) (f : α → β)
    (l : List α) (init : β) :
    l.foldl (fun acc kv => if p kv then f kv else acc) init
      = ((l.reverse.find? p).map f).getD init := by
  induction l generalizing init with
  | nil => simp
  | cons a xs ih =>
    simp only [List.foldl_cons, List.reverse_cons, ih]
    rw [List.find?_append]
    cases hf : xs.reverse.find? p with
    | some u => simp
    | none =>
      simp only [Option.none_or]
      by_cases hp : p a <;> simp [List.find?, hp]

/-- The possibleTypes accumulator equals the members of the last matching
union, or the flattened implementer lists when no union contains the type. -/
theorem possibleTypesFor_eq (t : GraphQLTypeObject)
    (imap umap : List (String × List GraphQLTypeDefinition)) :
    TS.possibleTypesFor t imap umap
      = ((umap.reverse.find?
            (fun kv => kv.2.any (fun d => d.name == t.name))).map
          Prod.snd).getD
        ((t.interfaces.map
          (fun iname => (lookupEntry imap iname).getD [])).flatten) := by
  simp only [TS.possibleTypesFor]
  rw [foldl_append_flatten]
  simp only [foldl_last_overwrite]
  simp

theorem renderIsTypeOf_isSome_iff (t : GraphQLTypeObject) (mm : ModelMap)
    (imap umap : List (String × List GraphQLTypeDefinition)) :
    ((TS.renderIsTypeOfFunctionInterface t mm imap umap).isSome = true
      ↔ TS.possibleTypesFor t imap umap ≠ []) := by
  unfold TS.renderIsTypeOfFunctionInterface
  by_cases h0 : TS.possibleTypesFor t imap umap = []
  · simp [h0]
  · have hlen : (TS.possibleTypesFor t imap umap).length ≠ 0 := by
      simpa [List.length_eq_zero] using h0
    simp [h0, hlen]

/-- C10: the TypeScript object resolver shape carries the optional
`__isTypeOf` discriminator binding iff the type implements at least one
interface or is a member of at least one union; whenever the type belongs to
some union, the possible-type set is exactly that union's member list, the
last union in registry order winning when several contain the type. -/
theorem C10_is_type_of_binding (t : GraphQLTypeObject) (mm : ModelMap)
    (imap umap : List (String × List GraphQLTypeDefinition))
    (himpl : ∀ iname ∈ t.interfaces, ∃ members,
      lookupEntry imap iname = some members ∧ ∃ d ∈ members, d.name = t.name) :
    ((TS.renderIsTypeOfFunctionInterface t mm imap umap).isSome = true
      ↔ (t.interfaces ≠ [] ∨ ∃ kv ∈ umap, ∃ d ∈ kv.2, d.name = t.name))
    ∧ (∀ e, TS.renderIsTypeOfFunctionInterface t mm imap umap = some e →
        e.optional = true)
    ∧ (∀ kv, umap.reverse.find?
          (fun kv => kv.2.any (fun d => d.name == t.name)) = some kv →
        TS.possibleTypesFor t imap umap = kv.2) := by
  refine ⟨?_, ?_, ?_⟩
  · rw [renderIsTypeOf_isSome_iff]
    cases hf : umap.reverse.find?
        (fun kv => kv.2.any (fun d => d.name == t.name)) with
    | some kv =>
      have hne : TS.possibleTypesFor t imap umap = kv.2 := by
        rw [possibleTypesFor_eq, hf]
        rfl
      have hany := List.find?_some hf
      obtain ⟨d, hd, hdn⟩ := List.any_eq_true.mp hany
      have hkv_mem : kv ∈ umap :=
        List.mem_reverse.mp (List.mem_of_find?_eq_some hf)
      constructor
      · intro _
        exact Or.inr ⟨kv, hkv_mem, d, hd, by simpa using hdn⟩
      · intro _
        rw [hne]
        exact List.ne_nil_of_mem hd
    | none =>
      have hnomatch : ∀ kv ∈ umap,
          kv.2.any (fun d => d.name == t.name) = false := by
        intro kv hkv
        have := List.find?_eq_none.mp hf kv (List.mem_reverse.mpr hkv)
        simpa using this
      have hpts : TS.possibleTypesFor t imap umap
          = (t.interfaces.map
              (fun iname => (lookupEntry imap iname).getD [])).flatten := by
        rw [possibleTypesFor_eq, hf]
        rfl
      rw [hpts]
      constructor
      · intro hne
        left
        intro hnil
        rw [hnil] at hne
        simp at hne
      · intro h
        rcases h with hif | ⟨kv, hkv, d, hd, hdn⟩
        · cases hint : t.interfaces with
          | nil => exact absurd hint hif
          | cons iname rest =>
            obtain ⟨members, hlook, d, hd, _⟩ :=
              himpl iname (by rw [hint]; exact List.mem_cons_self iname rest)
            simp only [List.map_cons, List.flatten_cons, hlook,
              Option.getD_some]
            cases members with
            | nil => simp at hd
            | cons m ms => simp
        · have hfalse := hnomatch kv hkv
          rw [List.any_eq_false] at hfalse
          exact absurd hdn (by simpa using hfalse d hd)
  · intro e he
    simp only [TS.renderIsTypeOfFunctionInterface] at he
    split at he
    · simp at he
    · cases he
      rfl
  · intro kv hkv
    rw [possibleTypesFor_eq, hkv]
    rfl

/-- C10 witness: `Post` implements `Node`, so its resolver shape carries the
optional `__isTypeOf` binding. -/
theorem C10_is_type_of_binding_witness :
    (TS.renderIsTypeOfFunctionInterface postObjectType sampleModelMap
      (interfacesMap interfaceArgs) (unionsMap interfaceArgs)).isSome
      = true := by
  have h := (C10_is_type_of_binding postObjectType sampleModelMap
    (interfacesMap interfaceArgs) (unionsMap interfaceArgs)
    (by
      intro iname hiname
      simp only [postObjectType, List.mem_cons, List.not_mem_nil,
        or_false] at hiname
      subst hiname
      exact ⟨[postDef, userDef], rfl, postDef, by decide, rfl⟩)).1
  rw [h]
  exact Or.inl (by decide)

end Graphqlgen
